import Mathlib

/-!
Verification of the dateslice library (src/dateslice.go).

The library builds slices of calendar dates on top of Go's `time` package.
We embed a `time.Time` value as its calendar day number: an `Int` counting
whole days since 1970-01-01 in the proleptic Gregorian calendar.  All dates
handled by the library share the time-of-day of the anchor value (the code
only ever adds whole days / months / years), so `Sub(..).Hours()/24.0` is an
exact whole number of days and `math.Ceil` is the identity on it; the day
number therefore determines every quantity the library inspects.

The civil (year, month, day) decomposition and recomposition below model the
documented semantics of Go's `time` package (proleptic Gregorian calendar,
`AddDate` normalising out-of-range months and days, `Weekday` with Sunday = 0,
`YearDay` counting from 1).  The decomposition mirrors the successive
cycle-division structure of Go's `absDate` (whole 400-year eras, then up to
three whole centuries, then whole 4-year cycles, then up to three whole
years, with the same end-of-cycle clamps), transposed to years that start on
March 1 so that the leap day is the last day of the cycle.  On `Int`, `/`
and `%` are `Int.ediv`/`Int.emod`, which agree with Go's floor-style
normalisation for the positive divisors used here.
-/

namespace DateSlice

/-- 400-year era of a day number (`z` counts days since 1970-01-01; day 0 of
era 0 is March 1 of year 0). -/
def eraOf (z : Int) : Int := (z + 719468) / 146097

/-- Day within the 400-year era, in `[0, 146096]`. -/
def doeOf (z : Int) : Int := z + 719468 - eraOf z * 146097

/-- Completed whole centuries within the era (clamped to 3, as the last day
of the era belongs to century 3). -/
def n100Of (z : Int) : Int := min (doeOf z / 36524) 3

/-- Day within the century. -/
def r100Of (z : Int) : Int := doeOf z - 36524 * n100Of z

/-- Completed 4-year cycles within the century. -/
def n4Of (z : Int) : Int := r100Of z / 1461

/-- Day within the 4-year cycle. -/
def r4Of (z : Int) : Int := r100Of z - 1461 * n4Of z

/-- Completed years within the 4-year cycle (clamped to 3: the leap day is
the last day of year 3 of the cycle). -/
def n1Of (z : Int) : Int := min (r4Of z / 365) 3

/-- Day of the March-based year, in `[0, 365]` (`0` is March 1). -/
def doyOf (z : Int) : Int := r4Of z - 365 * n1Of z

/-- Year of the era, in `[0, 399]`. -/
def yoeOf (z : Int) : Int := 100 * n100Of z + 4 * n4Of z + n1Of z

/-- Month index of the March-based year, in `[0, 11]` (`0` is March). -/
def mpOf (z : Int) : Int := (5 * doyOf z + 2) / 153

/-- Civil (year, month, day) of a day number, proleptic Gregorian.  Models
the decomposition performed by Go's `time.Time.Date`, `Year`, `Month`,
`Day`. -/
def civilFromDays (z : Int) : Int × Int × Int :=
  let y := yoeOf z + eraOf z * 400
  let m := if mpOf z < 10 then mpOf z + 3 else mpOf z - 9
  let d := doyOf z - (153 * mpOf z + 2) / 5 + 1
  (if m ≤ 2 then y + 1 else y, m, d)

/-- Day number (days since 1970-01-01) of a civil date whose month is in
`[1, 12]`; the day may be arbitrary (it is a pure offset from the 1st of the
month, the way Go's `time.Date` treats an out-of-range day). -/
def daysFromCivil (y m d : Int) : Int :=
  let y' := if m ≤ 2 then y - 1 else y
  let era := y' / 400
  let yoe := y' - era * 400
  let mp := (m + 9) % 12
  let doy := (153 * mp + 2) / 5 + d - 1
  let doe := yoe * 365 + yoe / 4 - yoe / 100 + doy
  era * 146097 + doe - 719468

/-- Day number of a civil date with arbitrary month and day: the month is
normalised into `[1, 12]` by floor division exactly as Go's `time.Date`
normalises its arguments. -/
def dateFromYMD (y m d : Int) : Int :=
  daysFromCivil (y + (m - 1) / 12) ((m - 1) % 12 + 1) d

/-- `time.Time.Year`. -/
def yearOfDays (t : Int) : Int := (civilFromDays t).1

/-- `time.Time.Month` (1 = January). -/
def monthOfDays (t : Int) : Int := (civilFromDays t).2.1

/-- `time.Time.Day` (day of the month, from 1). -/
def dayOfDays (t : Int) : Int := (civilFromDays t).2.2

/-- `time.Time.AddDate(years, months, days)`: decompose into civil form, add
componentwise, renormalise. -/
def addDate (t years months days : Int) : Int :=
  dateFromYMD (yearOfDays t + years) (monthOfDays t + months) (dayOfDays t + days)

/-- `time.Time.Weekday` with Sunday = 0: 1970-01-01 was a Thursday (= 4). -/
def weekday (t : Int) : Int := (t + 4) % 7

/-- `time.Time.YearDay`: January 1 is day 1. -/
def yearDay (t : Int) : Int := t - daysFromCivil (yearOfDays t) 1 1 + 1

/-- Go's `isLeap`. -/
def isLeap (y : Int) : Bool :=
  (y % 4 == 0 && y % 100 != 0) || y % 400 == 0

/-- Number of days in a calendar month (Go's `daysIn`). -/
def daysInMonth (y m : Int) : Int :=
  if m = 2 then (if isLeap y then 29 else 28)
  else if m = 4 ∨ m = 6 ∨ m = 9 ∨ m = 11 then 30 else 31

section CoreLemmas

set_option maxHeartbeats 4000000

/-- Arithmetic facts about the cycle decomposition of a day number: the
pieces lie in their advertised ranges and telescope back to the day
number. -/
theorem cycle_bounds (z : Int) :
    eraOf z * 146097 + doeOf z = z + 719468 ∧ 0 ≤ doeOf z ∧ doeOf z ≤ 146096 ∧
    0 ≤ n100Of z ∧ n100Of z ≤ 3 ∧ 0 ≤ n4Of z ∧ n4Of z ≤ 24 ∧
    0 ≤ n1Of z ∧ n1Of z ≤ 3 ∧ 0 ≤ doyOf z ∧ doyOf z ≤ 365 ∧
    36524 * n100Of z + 1461 * n4Of z + 365 * n1Of z + doyOf z = doeOf z := by
  unfold doyOf n1Of r4Of n4Of r100Of n100Of doeOf eraOf
  omega

/-- Leap-day count below the year of the era, in closed form. -/
theorem yoe_div4 (z : Int) : yoeOf z / 4 = 25 * n100Of z + n4Of z := by
  have h := cycle_bounds z
  unfold yoeOf
  omega

/-- Century count below the year of the era, in closed form. -/
theorem yoe_div100 (z : Int) : yoeOf z / 100 = n100Of z := by
  have h := cycle_bounds z
  unfold yoeOf
  omega

/-- The year of the era is in `[0, 399]`. -/
theorem yoe_bounds (z : Int) : 0 ≤ yoeOf z ∧ yoeOf z ≤ 399 := by
  have h := cycle_bounds z
  unfold yoeOf
  omega

/-- The March-based day of the year recomposes the day of the era. -/
theorem doe_identity (z : Int) :
    365 * yoeOf z + yoeOf z / 4 - yoeOf z / 100 + doyOf z = doeOf z := by
  have h := cycle_bounds z
  rw [yoe_div4, yoe_div100]
  unfold yoeOf
  omega

/-- The March-based month index is in `[0, 11]`. -/
theorem mp_bounds (z : Int) : 0 ≤ mpOf z ∧ mpOf z ≤ 11 := by
  have h := cycle_bounds z
  unfold mpOf
  omega

/-- The civil decomposition is a section of the day-number recomposition:
recomposing the civil form of any day number gives the day number back. -/
theorem daysFromCivil_civilFromDays (z : Int) :
    daysFromCivil (civilFromDays z).1 (civilFromDays z).2.1 (civilFromDays z).2.2 = z := by
  have hc := cycle_bounds z
  have hy := yoe_bounds z
  have hd := doe_identity z
  have hmp := mp_bounds z
  have hg : (yoeOf z + eraOf z * 400) / 400 = eraOf z := by omega
  have hi : (yoeOf z + eraOf z * 400 - (yoeOf z + eraOf z * 400) / 400 * 400) / 4
      = yoeOf z / 4 := by
    rw [hg]; congr 1; ring
  have hj : (yoeOf z + eraOf z * 400 - (yoeOf z + eraOf z * 400) / 400 * 400) / 100
      = yoeOf z / 100 := by
    rw [hg]; congr 1; ring
  have hm1 : (mpOf z + 3 + 9) % 12 = mpOf z := by omega
  have hm2 : (mpOf z - 9 + 9) % 12 = mpOf z := by omega
  have hk1 : (153 * ((mpOf z + 3 + 9) % 12) + 2) / 5 = (153 * mpOf z + 2) / 5 := by rw [hm1]
  have hk2 : (153 * ((mpOf z - 9 + 9) % 12) + 2) / 5 = (153 * mpOf z + 2) / 5 := by rw [hm2]
  simp only [civilFromDays, daysFromCivil]
  split_ifs <;> (try simp only [add_sub_cancel_right]) <;> omega

/-- A helper collapse: the quarter count of a year of the era splits into
its century and intra-century parts. -/
theorem yoe_quarter_split (yoe : Int) :
    yoe / 4 = 25 * (yoe / 100) + (yoe % 100) / 4 := by
  omega

/-- Recovering the cycle decomposition from a recomposed day number.  The
two side conditions say that a 366th day of the March-based year can only
occur in a leap year: the last year of a 4-year cycle, and not the last
year of a century unless it is the last year of the era. -/
theorem decomp_recover (era yoe doy z : Int)
    (hy0 : 0 ≤ yoe) (hy1 : yoe ≤ 399) (hd0 : 0 ≤ doy) (hd1 : doy ≤ 365)
    (hV1 : doy = 365 → yoe % 4 = 3)
    (hV2 : doy = 365 → yoe % 100 = 99 → yoe = 399)
    (hz : z = era * 146097 + (365 * yoe + yoe / 4 - yoe / 100 + doy) - 719468) :
    eraOf z = era ∧ yoeOf z = yoe ∧ doyOf z = doy := by
  have hq := yoe_quarter_split yoe
  have hz' : z + 719468
      = era * 146097 + 36524 * (yoe / 100) + 1461 * ((yoe % 100) / 4)
        + 365 * (yoe % 4) + doy := by
    omega
  have hera : eraOf z = era := by
    unfold eraOf
    omega
  have hdoe : doeOf z
      = 36524 * (yoe / 100) + 1461 * ((yoe % 100) / 4) + 365 * (yoe % 4) + doy := by
    unfold doeOf
    rw [hera]
    omega
  have hn100 : n100Of z = yoe / 100 := by
    unfold n100Of
    rw [hdoe]
    omega
  have hn4 : n4Of z = (yoe % 100) / 4 := by
    unfold n4Of r100Of
    rw [hdoe, hn100]
    omega
  have hn1 : n1Of z = yoe % 4 := by
    unfold n1Of r4Of r100Of
    rw [hdoe, hn100, hn4]
    omega
  have hdoy : doyOf z = doy := by
    unfold doyOf r4Of r100Of
    rw [hdoe, hn100, hn4, hn1]
    omega
  have hyoe : yoeOf z = yoe := by
    unfold yoeOf
    rw [hn100, hn4, hn1]
    omega
  exact ⟨hera, hyoe, hdoy⟩

/-- `daysFromCivil` is linear in the day argument: the day is a pure offset
from the 1st of the month. -/
theorem daysFromCivil_add_days (y m d k : Int) :
    daysFromCivil y m (d + k) = daysFromCivil y m d + k := by
  unfold daysFromCivil
  split_ifs <;> ring

/-- For a month already in `[1, 12]`, `dateFromYMD` does not renormalise. -/
theorem dateFromYMD_eq (y m d : Int) (h1 : 1 ≤ m) (h2 : m ≤ 12) :
    dateFromYMD y m d = daysFromCivil y m d := by
  unfold dateFromYMD
  have e1 : (m - 1) / 12 = 0 := by omega
  have e2 : (m - 1) % 12 + 1 = m := by omega
  rw [e1, e2, show y + 0 = y from by ring]

/-- The month component of any civil decomposition is in `[1, 12]`. -/
theorem civil_month_bounds (z : Int) : 1 ≤ monthOfDays z ∧ monthOfDays z ≤ 12 := by
  have := mp_bounds z
  unfold monthOfDays civilFromDays
  split_ifs <;> simp <;> omega

/-- Adding `k` days with `AddDate(0, 0, k)` is plain day-number addition. -/
theorem addDate_days (t k : Int) : addDate t 0 0 k = t + k := by
  have hm := civil_month_bounds t
  have hrt := daysFromCivil_civilFromDays t
  unfold addDate
  rw [show yearOfDays t + 0 = yearOfDays t from by ring,
    show monthOfDays t + 0 = monthOfDays t from by ring,
    dateFromYMD_eq _ _ _ hm.1 hm.2, daysFromCivil_add_days]
  unfold yearOfDays monthOfDays dayOfDays
  omega

/-- `AddDate(0, 0, k)` lands on day `Day() + k` of the current civil month
(as an offset; the day may be out of range). -/
theorem addDate_to_day (t k : Int) :
    addDate t 0 0 k = daysFromCivil (yearOfDays t) (monthOfDays t) (dayOfDays t + k) := by
  have hm := civil_month_bounds t
  unfold addDate
  rw [show yearOfDays t + 0 = yearOfDays t from by ring,
    show monthOfDays t + 0 = monthOfDays t from by ring,
    dateFromYMD_eq _ _ _ hm.1 hm.2]

/-- Month lengths are between 28 and 31. -/
theorem daysInMonth_bounds (y m : Int) : 28 ≤ daysInMonth y m ∧ daysInMonth y m ≤ 31 := by
  unfold daysInMonth
  split_ifs <;> omega

/-- February's length as an arithmetic condition. -/
theorem daysInMonth_two (y : Int) :
    daysInMonth y 2 = if (y % 4 = 0 ∧ y % 100 ≠ 0) ∨ y % 400 = 0 then 29 else 28 := by
  unfold daysInMonth isLeap
  simp only [if_pos rfl, Bool.or_eq_true, Bool.and_eq_true, beq_iff_eq, bne_iff_ne]
  norm_num

/-- One Gregorian year step of the cumulative day count, with the three
divisibility corrections. -/
theorem gstep (x : Int) :
    (x + 1) / 400 * 146097 + 365 * ((x + 1) % 400) + ((x + 1) % 400) / 4
        - ((x + 1) % 400) / 100
      - (x / 400 * 146097 + 365 * (x % 400) + (x % 400) / 4 - (x % 400) / 100)
    = 365 + (if (x + 1) % 4 = 0 then 1 else 0) - (if (x + 1) % 100 = 0 then 1 else 0)
        + (if (x + 1) % 400 = 0 then 1 else 0) := by
  split_ifs <;> omega

/-- Decomposing the day number of a valid civil date gives the civil date
back. -/
theorem civilFromDays_daysFromCivil (y m d : Int) (hm1 : 1 ≤ m) (hm12 : m ≤ 12)
    (hd1 : 1 ≤ d) (hdim : d ≤ daysInMonth y m) :
    civilFromDays (daysFromCivil y m d) = (y, m, d) := by
  rcases le_or_lt m 2 with hm2 | hm2
  · -- January and February lie at the end of March-based year y - 1.
    have hz : daysFromCivil y m d
        = (y - 1) / 400 * 146097
          + (365 * ((y - 1) % 400) + ((y - 1) % 400) / 4 - ((y - 1) % 400) / 100
            + ((153 * (m + 9) + 2) / 5 + d - 1)) - 719468 := by
      simp only [daysFromCivil]
      split_ifs with h
      · have h9 : (m + 9) % 12 = m + 9 := by omega
        rw [h9]
        omega
      · omega
    interval_cases m
    · -- January
      norm_num [daysInMonth] at hdim
      obtain ⟨hera, hyoe, hdoy⟩ :=
        decomp_recover _ _ _ _ (by omega) (by omega) (by omega) (by omega)
          (by intro h; omega) (by intro h h2; omega) hz
      simp only [civilFromDays, Prod.mk.injEq]
      unfold mpOf
      rw [hyoe, hdoy, hera]
      split_ifs <;> omega
    · -- February
      rw [daysInMonth_two] at hdim
      have hdle : d ≤ 29 := by split_ifs at hdim <;> omega
      have hV1 : (153 * (2 + 9) + 2) / 5 + d - 1 = 365 → ((y - 1) % 400) % 4 = 3 := by
        intro h365
        by_cases hc : (y % 4 = 0 ∧ y % 100 ≠ 0) ∨ y % 400 = 0
        · omega
        · rw [if_neg hc] at hdim
          omega
      have hV2 : (153 * (2 + 9) + 2) / 5 + d - 1 = 365 → ((y - 1) % 400) % 100 = 99
          → (y - 1) % 400 = 399 := by
        intro h365 h99
        by_cases hc : (y % 4 = 0 ∧ y % 100 ≠ 0) ∨ y % 400 = 0
        · omega
        · rw [if_neg hc] at hdim
          omega
      obtain ⟨hera, hyoe, hdoy⟩ :=
        decomp_recover _ _ _ _ (by omega) (by omega) (by omega) (by omega) hV1 hV2 hz
      simp only [civilFromDays, Prod.mk.injEq]
      unfold mpOf
      rw [hyoe, hdoy, hera]
      split_ifs <;> omega
  · -- March to December lie inside March-based year y.
    have hz : daysFromCivil y m d
        = y / 400 * 146097
          + (365 * (y % 400) + (y % 400) / 4 - (y % 400) / 100
            + ((153 * (m - 3) + 2) / 5 + d - 1)) - 719468 := by
      simp only [daysFromCivil]
      split_ifs with h
      · omega
      · have h9 : (m + 9) % 12 = m - 3 := by omega
        rw [h9]
        omega
    interval_cases m <;>
      (norm_num [daysInMonth] at hdim
       obtain ⟨hera, hyoe, hdoy⟩ :=
         decomp_recover _ _ _ _ (by omega) (by omega) (by omega) (by omega)
           (by intro h; omega) (by intro h h2; omega) hz
       simp only [civilFromDays, Prod.mk.injEq]
       unfold mpOf
       rw [hyoe, hdoy, hera]
       split_ifs <;> omega)

/-- `isLeap` as an arithmetic condition. -/
theorem isLeap_iff (y : Int) :
    isLeap y = true ↔ (y % 4 = 0 ∧ y % 100 ≠ 0) ∨ y % 400 = 0 := by
  unfold isLeap
  simp [Bool.or_eq_true, Bool.and_eq_true, beq_iff_eq, bne_iff_ne]

/-- The day distance from the 1st of a month to the 1st of the next month
(formed with Go's month normalisation) is the length of the month. -/
theorem month_length (y m : Int) (hm1 : 1 ≤ m) (hm12 : m ≤ 12) :
    dateFromYMD y (m + 1) 1 - daysFromCivil y m 1 = daysInMonth y m := by
  rcases eq_or_ne m 2 with rfl | hne
  · have hg := gstep (y - 1)
    rw [show y - 1 + 1 = y from by ring] at hg
    rw [daysInMonth_two]
    simp only [dateFromYMD, daysFromCivil]
    split_ifs at hg ⊢ <;> omega
  · interval_cases m <;>
      first
        | exact absurd rfl hne
        | (norm_num [daysInMonth]
           simp only [dateFromYMD, daysFromCivil]
           split_ifs <;> omega)

/-- The day distance from January 1 to the next January 1 (formed with Go's
month normalisation) is 366 in leap years and 365 otherwise. -/
theorem year_length (y : Int) :
    dateFromYMD (y + 1) 1 1 - daysFromCivil y 1 1
      = if (y % 4 = 0 ∧ y % 100 ≠ 0) ∨ y % 400 = 0 then 366 else 365 := by
  have hg := gstep (y - 1)
  rw [show y - 1 + 1 = y from by ring] at hg
  simp only [dateFromYMD, daysFromCivil]
  split_ifs at hg ⊢ <;> omega

/-- `AddDate` on a day number whose civil form is known and valid. -/
theorem addDate_of_civil (y m d : Int) (hm1 : 1 ≤ m) (hm12 : m ≤ 12)
    (hd1 : 1 ≤ d) (hdim : d ≤ daysInMonth y m) (years months days : Int) :
    addDate (daysFromCivil y m d) years months days
      = dateFromYMD (y + years) (m + months) (d + days) := by
  unfold addDate yearOfDays monthOfDays dayOfDays
  simp only [civilFromDays_daysFromCivil y m d hm1 hm12 hd1 hdim]

end CoreLemmas

section Library

/-!
The functions of src/dateslice.go.  A `time.Time` is embedded as its day
number (`Int`); `time.Now()` is passed explicitly as a `now` parameter.
`Range` returns `none` when the computed element count is negative, in
which case Go's `make([]time.Time, n)` panics at run time; in every other
case it returns the slice.  `end.Sub(beg).Hours()/24.0` is the exact
whole-day difference in this embedding (the two operands always share
their time of day), so `math.Ceil` is the identity on it.
-/

/-- `Today`. -/
def Today (now : Int) : List Int := [now]

/-- `Yesterday`. -/
def Yesterday (now : Int) : List Int := [addDate now 0 0 (-1)]

/-- `Tomorrow`. -/
def Tomorrow (now : Int) : List Int := [addDate now 0 0 1]

/-- `DayBefore`. -/
def DayBefore (d : Int) : List Int := [addDate d 0 0 (-1)]

/-- `aWeek`: the full Sunday-to-Saturday week containing `baseDate`. -/
def aWeek (baseDate : Int) : List Int :=
  let dow := weekday baseDate
  let b := addDate baseDate 0 0 (0 - dow)
  (List.range 7).map (fun (i : Nat) => addDate b 0 0 (i : Int))

/-- `WeekOf`. -/
def WeekOf (date : Int) : List Int := aWeek date

/-- `ThisWeek`. -/
def ThisWeek (now : Int) : List Int := aWeek now

/-- `LastWeek`. -/
def LastWeek (now : Int) : List Int := aWeek (addDate now 0 0 (-7))

/-- `NextWeek`. -/
def NextWeek (now : Int) : List Int := aWeek (addDate now 0 0 7)

/-- `aMonth`: the full calendar month containing `baseDate`. -/
def aMonth (baseDate : Int) : List Int :=
  let dom := dayOfDays baseDate - 1
  let b := addDate baseDate 0 0 (0 - dom)
  let firstOfNextMonth := addDate b 0 1 0
  let daysInThisMonth := firstOfNextMonth - b
  (List.range daysInThisMonth.toNat).map (fun (i : Nat) => addDate b 0 0 (i : Int))

/-- `ThisMonth`. -/
def ThisMonth (now : Int) : List Int := aMonth now

/-- `LastMonth`. -/
def LastMonth (now : Int) : List Int := aMonth (addDate now 0 (-1) 0)

/-- `NextMonth`. -/
def NextMonth (now : Int) : List Int := aMonth (addDate now 0 1 0)

/-- `MonthOf`. -/
def MonthOf (date : Int) : List Int := aMonth date

/-- `aYear`: the full calendar year containing `baseDate`. -/
def aYear (baseDate : Int) : List Int :=
  let dom := yearDay baseDate - 1
  let b := addDate baseDate 0 0 (0 - dom)
  let firstOfNextYear := addDate b 1 0 0
  let daysInThisYear := firstOfNextYear - b
  (List.range daysInThisYear.toNat).map (fun (i : Nat) => addDate b 0 0 (i : Int))

/-- `ThisYear`. -/
def ThisYear (now : Int) : List Int := aYear now

/-- `LastYear`. -/
def LastYear (now : Int) : List Int := aYear (addDate now (-1) 0 0)

/-- `NextYear`. -/
def NextYear (now : Int) : List Int := aYear (addDate now 1 0 0)

/-- `YearOf`. -/
def YearOf (date : Int) : List Int := aYear date

/-- `Range`: `daysInRange := end.Sub(beg).Hours()/24.0 + 1.0` is the exact
whole-day difference plus one; `make` with a negative length panics
(`none`), otherwise the days are enumerated from `beg`. -/
def Range (beg en : Int) : Option (List Int) :=
  let daysInRange := en - beg + 1
  if daysInRange < 0 then none
  else some ((List.range daysInRange.toNat).map (fun (i : Nat) => addDate beg 0 0 (i : Int)))

/-- ASCII digit test (code point between '0' = 48 and '9' = 57). -/
def isDigit (c : Char) : Bool := 48 ≤ c.toNat && c.toNat ≤ 57

/-- Numeric value of an ASCII digit character. -/
def digitVal (c : Char) : Int := (c.toNat : Int) - 48

/-- Value of a big-endian decimal digit string. -/
def valOfDigits (l : List Char) : Int := l.foldl (fun a c => 10 * a + digitVal c) 0

/-- `time.Parse("20060102", s)`: exactly eight digits, month validated to
`[1, 12]` and day validated against the month length; any failure is a
parse error (`none`). -/
def parseYYYYMMDD (s : String) : Option Int :=
  let cs := s.toList
  if cs.length = 8 ∧ cs.all isDigit = true then
    let y := valOfDigits (cs.take 4)
    let mo := valOfDigits ((cs.drop 4).take 2)
    let d := valOfDigits (cs.drop 6)
    if 1 ≤ mo ∧ mo ≤ 12 ∧ 1 ≤ d ∧ d ≤ daysInMonth y mo then
      some (daysFromCivil y mo d)
    else none
  else none

/-- Go's zero `time.Time`: January 1 of year 1. -/
def zeroTime : Int := daysFromCivil 1 1 1

/-- The source's parse-error policy: print the error and keep the zero
value. -/
def parseOrZero (s : String) : Int := (parseYYYYMMDD s).getD zeroTime

/-- Decimal digit character. -/
def digitChar (n : Int) : Char := Char.ofNat (48 + n.toNat)

/-- Two-digit zero-padded rendering (Go's fixed-width `01` / `02` layout
fields; all values produced by the library are in range). -/
def pad2 (n : Int) : List Char := [digitChar (n / 10 % 10), digitChar (n % 10)]

/-- Four-digit zero-padded rendering (Go's `2006` layout field; all years
produced on the verified paths are in `[0, 9999]`). -/
def pad4 (n : Int) : List Char :=
  [digitChar (n / 1000 % 10), digitChar (n / 100 % 10), digitChar (n / 10 % 10),
    digitChar (n % 10)]

/-- `t.Format("20060102")`. -/
def formatYYYYMMDD (t : Int) : String :=
  ⟨pad4 (yearOfDays t) ++ pad2 (monthOfDays t) ++ pad2 (dayOfDays t)⟩

/-- `RangeString`: widen a 6-digit begin string by appending day `01`, a
4-digit begin string by appending `0101`; widen a 6-digit end string to the
last day of its month (append `01`, parse, add one month, subtract one day,
reformat) and a 4-digit end string to the last day of its year (append
`0101`, parse, add one year, subtract one day, reformat); then parse both
and delegate to `Range`. -/
def RangeString (begDt endDt : String) : Option (List Int) :=
  let begDt1 := if begDt.length = 6 then begDt ++ "01" else begDt
  let begDt2 := if begDt1.length = 4 then begDt1 ++ "0101" else begDt1
  let endDt1 :=
    if endDt.length = 6 then
      let temp := parseOrZero (endDt ++ "01")
      let temp := addDate temp 0 1 0
      let temp := addDate temp 0 0 (-1)
      formatYYYYMMDD temp
    else endDt
  let endDt2 :=
    if endDt1.length = 4 then
      let temp := parseOrZero (endDt1 ++ "0101")
      let temp := addDate temp 1 0 0
      let temp := addDate temp 0 0 (-1)
      formatYYYYMMDD temp
    else endDt1
  Range (parseOrZero begDt2) (parseOrZero endDt2)

/-- ASCII case folding (the fragment of `strings.EqualFold` exercised by
the fixed keyword set, which is pure ASCII). -/
def toLowerChar (c : Char) : Char :=
  if 'A' ≤ c ∧ c ≤ 'Z' then Char.ofNat (c.toNat + 32) else c

/-- `strings.EqualFold` on ASCII strings. -/
def equalFold (a b : String) : Bool :=
  a.toList.map toLowerChar == b.toList.map toLowerChar

/-- `DateStringToSlice`: case-insensitive dispatch over the six keywords;
anything else yields the nil slice. -/
def DateStringToSlice (now : Int) (dateText : String) : List Int :=
  if equalFold dateText "today" then Today now
  else if equalFold dateText "yesterday" then Yesterday now
  else if equalFold dateText "thisweek" then ThisWeek now
  else if equalFold dateText "lastweek" then LastWeek now
  else if equalFold dateText "thismonth" then ThisMonth now
  else if equalFold dateText "lastmonth" then LastMonth now
  else []

/-- `DateObjectsToSlice`: keyword dispatch first, then the begin/end pair
overrides it whenever the begin string is non-empty (with a missing end
defaulting to the begin). -/
def DateObjectsToSlice (now : Int) (dateString begDt endDt : String) :
    Option (List Int) :=
  let ds := if dateString.length ≠ 0 then DateStringToSlice now dateString else []
  if begDt.length ≠ 0 then
    if endDt.length ≠ 0 then RangeString begDt endDt
    else RangeString begDt begDt
  else some ds

end Library

section ListHelpers

/-- Length of an enumerated arithmetic ramp. -/
theorem range_map_length (a : Int) (n : Nat) :
    ((List.range n).map (fun (i : Nat) => a + (i : Int))).length = n := by
  rw [List.length_map, List.length_range]

/-- Head of a nonempty enumerated arithmetic ramp. -/
theorem range_map_head (a : Int) (n : Nat) (hn : 0 < n) :
    ((List.range n).map (fun (i : Nat) => a + (i : Int))).head? = some a := by
  obtain ⟨k, rfl⟩ := Nat.exists_eq_succ_of_ne_zero (Nat.pos_iff_ne_zero.mp hn)
  rw [List.range_succ_eq_map, List.map_cons, List.head?_cons]
  congr 1
  omega

/-- Last element of a nonempty enumerated arithmetic ramp. -/
theorem range_map_getLast (a : Int) (n : Nat) (hn : 0 < n) :
    ((List.range n).map (fun (i : Nat) => a + (i : Int))).getLast? = some (a + n - 1) := by
  rw [List.getLast?_eq_getElem?, List.length_map, List.length_range, List.getElem?_map,
    List.getElem?_range (by omega), Option.map_some']
  congr 1
  omega

/-- Consecutive elements of an enumerated arithmetic ramp differ by one. -/
theorem range_map_chain (a : Int) (n : Nat) :
    List.Chain' (fun x y => y = x + 1) ((List.range n).map (fun (i : Nat) => a + (i : Int))) := by
  rw [List.chain'_iff_get]
  intro i h
  simp only [List.get_eq_getElem, List.getElem_map, List.getElem_range]
  omega

end ListHelpers

section ShapeLemmas

set_option maxHeartbeats 1000000

/-- `aMonth` enumerates, from the 1st of the base date's month, as many
days as the month is long. -/
theorem aMonth_eq (t : Int) :
    aMonth t = (List.range (daysInMonth (yearOfDays t) (monthOfDays t)).toNat).map
      (fun (i : Nat) => daysFromCivil (yearOfDays t) (monthOfDays t) 1 + (i : Int)) := by
  have hmb := civil_month_bounds t
  have hdimb := daysInMonth_bounds (yearOfDays t) (monthOfDays t)
  have hb : addDate t 0 0 (0 - (dayOfDays t - 1))
      = daysFromCivil (yearOfDays t) (monthOfDays t) 1 := by
    rw [addDate_to_day]
    congr 1
    ring
  have hfn : addDate (daysFromCivil (yearOfDays t) (monthOfDays t) 1) 0 1 0
      = dateFromYMD (yearOfDays t) (monthOfDays t + 1) 1 := by
    rw [addDate_of_civil _ _ _ hmb.1 hmb.2 (by norm_num) (by omega) 0 1 0]
    norm_num
  have hlen : dateFromYMD (yearOfDays t) (monthOfDays t + 1) 1
      - daysFromCivil (yearOfDays t) (monthOfDays t) 1
      = daysInMonth (yearOfDays t) (monthOfDays t) := month_length _ _ hmb.1 hmb.2
  simp only [aMonth, hb, hfn, hlen, addDate_days]

/-- `aYear` enumerates, from January 1 of the base date's year, as many
days as the year is long. -/
theorem aYear_eq (t : Int) :
    aYear t = (List.range (dateFromYMD (yearOfDays t + 1) 1 1
        - daysFromCivil (yearOfDays t) 1 1).toNat).map
      (fun (i : Nat) => daysFromCivil (yearOfDays t) 1 1 + (i : Int)) := by
  have hb : addDate t 0 0 (0 - (yearDay t - 1))
      = daysFromCivil (yearOfDays t) 1 1 := by
    rw [addDate_days]
    unfold yearDay
    ring
  have hfn : addDate (daysFromCivil (yearOfDays t) 1 1) 1 0 0
      = dateFromYMD (yearOfDays t + 1) 1 1 := by
    rw [addDate_of_civil _ _ _ (by norm_num) (by norm_num) (by norm_num)
      (by norm_num [daysInMonth]) 1 0 0]
    norm_num
  simp only [aYear, hb, hfn, addDate_days]

end ShapeLemmas

section Claims

set_option maxHeartbeats 1000000

/-- C1: for begin ≤ end, `Range` returns a slice whose length is the
whole-day difference plus one, whose first element is begin, whose last
element is end, and whose consecutive elements differ by exactly one
calendar day. -/
theorem C1_Range_spec (beg en : Int) (h : beg ≤ en) :
    ∃ l, Range beg en = some l ∧ (l.length : Int) = en - beg + 1 ∧
      l.head? = some beg ∧ l.getLast? = some en ∧
      List.Chain' (fun x y => y = x + 1) l := by
  refine ⟨(List.range (en - beg + 1).toNat).map (fun (i : Nat) => beg + (i : Int)),
    ?_, ?_, ?_, ?_, ?_⟩
  · simp only [Range, addDate_days]
    rw [if_neg (by omega)]
  · rw [range_map_length]
    omega
  · exact range_map_head _ _ (by omega)
  · rw [range_map_getLast _ _ (by omega)]
    congr 1
    omega
  · exact range_map_chain _ _

/-- Witness for C1 at begin = 0, end = 2. -/
theorem C1_Range_spec_witness :
    (0 : Int) ≤ 2 ∧
    ∃ l, Range 0 2 = some l ∧ (l.length : Int) = 2 - 0 + 1 ∧
      l.head? = some 0 ∧ l.getLast? = some 2 ∧
      List.Chain' (fun x y => y = x + 1) l :=
  ⟨by norm_num, C1_Range_spec 0 2 (by norm_num)⟩

/-- C3: `WeekOf` is exactly 7 consecutive days; its first element is the
Sunday obtained by subtracting the weekday index (0 = Sunday .. 6 =
Saturday) from the anchor. -/
theorem C3_WeekOf_spec (t : Int) :
    (WeekOf t).length = 7 ∧
    (WeekOf t).head? = some (t - weekday t) ∧
    weekday (t - weekday t) = 0 ∧
    0 ≤ weekday t ∧ weekday t ≤ 6 ∧
    List.Chain' (fun x y => y = x + 1) (WeekOf t) ∧
    WeekOf t = (List.range 7).map (fun (i : Nat) => t - weekday t + (i : Int)) := by
  have hw : addDate t 0 0 (0 - weekday t) = t - weekday t := by
    rw [addDate_days]
    ring
  have heq : WeekOf t = (List.range 7).map (fun (i : Nat) => t - weekday t + (i : Int)) := by
    simp only [WeekOf, aWeek, hw, addDate_days]
  refine ⟨?_, ?_, ?_, ?_, ?_, ?_, heq⟩
  · rw [heq, range_map_length]
  · rw [heq]
    exact range_map_head _ _ (by norm_num)
  · unfold weekday
    omega
  · unfold weekday
    omega
  · unfold weekday
    omega
  · rw [heq]
    exact range_map_chain _ _

/-- C2: `MonthOf` has as many elements as the anchor's calendar month has
days (between 28 and 31); its first element is the 1st of that month, and
the element count is the whole-day difference from that 1st to the 1st of
the following month. -/
theorem C2_MonthOf_spec (t : Int) :
    ((MonthOf t).length : Int) = daysInMonth (yearOfDays t) (monthOfDays t) ∧
    28 ≤ daysInMonth (yearOfDays t) (monthOfDays t) ∧
    daysInMonth (yearOfDays t) (monthOfDays t) ≤ 31 ∧
    (MonthOf t).head? = some (daysFromCivil (yearOfDays t) (monthOfDays t) 1) ∧
    civilFromDays (daysFromCivil (yearOfDays t) (monthOfDays t) 1)
      = (yearOfDays t, monthOfDays t, 1) ∧
    daysInMonth (yearOfDays t) (monthOfDays t)
      = dateFromYMD (yearOfDays t) (monthOfDays t + 1) 1
        - daysFromCivil (yearOfDays t) (monthOfDays t) 1 ∧
    List.Chain' (fun x y => y = x + 1) (MonthOf t) := by
  have hmb := civil_month_bounds t
  have hdimb := daysInMonth_bounds (yearOfDays t) (monthOfDays t)
  have heq := aMonth_eq t
  refine ⟨?_, hdimb.1, hdimb.2, ?_, ?_, ?_, ?_⟩
  · rw [show MonthOf t = aMonth t from rfl, heq, range_map_length]
    omega
  · rw [show MonthOf t = aMonth t from rfl, heq]
    exact range_map_head _ _ (by omega)
  · exact civilFromDays_daysFromCivil _ _ _ hmb.1 hmb.2 (by norm_num) (by omega)
  · exact (month_length _ _ hmb.1 hmb.2).symm
  · rw [show MonthOf t = aMonth t from rfl, heq]
    exact range_map_chain _ _

/-- C4: `YearOf` has 366 elements in leap years and 365 otherwise; its
first element is January 1 of the anchor's year, reached by subtracting
(day-of-year − 1). -/
theorem C4_YearOf_spec (t : Int) :
    ((YearOf t).length : Int) = (if isLeap (yearOfDays t) = true then 366 else 365) ∧
    (YearOf t).head? = some (t - (yearDay t - 1)) ∧
    t - (yearDay t - 1) = daysFromCivil (yearOfDays t) 1 1 ∧
    civilFromDays (daysFromCivil (yearOfDays t) 1 1) = (yearOfDays t, 1, 1) ∧
    List.Chain' (fun x y => y = x + 1) (YearOf t) := by
  have heq := aYear_eq t
  have hyl := year_length (yearOfDays t)
  have hfirst : t - (yearDay t - 1) = daysFromCivil (yearOfDays t) 1 1 := by
    unfold yearDay
    ring
  refine ⟨?_, ?_, hfirst, ?_, ?_⟩
  · rw [show YearOf t = aYear t from rfl, heq, range_map_length]
    by_cases hL : (yearOfDays t % 4 = 0 ∧ yearOfDays t % 100 ≠ 0) ∨ yearOfDays t % 400 = 0
    · rw [if_pos hL] at hyl
      rw [if_pos ((isLeap_iff _).mpr hL)]
      omega
    · rw [if_neg hL] at hyl
      rw [if_neg (fun hc => hL ((isLeap_iff _).mp hc))]
      omega
  · rw [show YearOf t = aYear t from rfl, heq, hfirst]
    refine range_map_head _ _ ?_
    by_cases hL : (yearOfDays t % 4 = 0 ∧ yearOfDays t % 100 ≠ 0) ∨ yearOfDays t % 400 = 0
    · rw [if_pos hL] at hyl
      omega
    · rw [if_neg hL] at hyl
      omega
  · exact civilFromDays_daysFromCivil _ _ _ (by norm_num) (by norm_num) (by norm_num)
      (by norm_num [daysInMonth])
  · rw [show YearOf t = aYear t from rfl, heq]
    exact range_map_chain _ _

/-- C9: with end before begin, `Range` computes a non-positive element
count: exactly one whole day before begin gives count zero and the empty
slice; two or more days before begin gives a negative count, on which
`make` faults (`none`). -/
theorem C9_Range_neg_spec (beg en : Int) :
    (en = beg - 1 → Range beg en = some []) ∧
    (en ≤ beg - 2 → Range beg en = none) := by
  constructor
  · intro h
    simp only [Range]
    rw [if_neg (by omega)]
    rw [show (en - beg + 1).toNat = 0 from by omega]
    rfl
  · intro h
    simp only [Range]
    rw [if_pos (by omega)]

/-- Witness for C9 at begin = 0, end = −1 and begin = 0, end = −2. -/
theorem C9_Range_neg_spec_witness :
    Range 0 (-1) = some [] ∧ Range 0 (-2) = none :=
  ⟨(C9_Range_neg_spec 0 (-1)).1 (by norm_num), (C9_Range_neg_spec 0 (-2)).2 (by norm_num)⟩

end Claims

section DispatchHelpers

/-- An input matching none of the six keywords dispatches to the nil
slice. -/
theorem dispatch_unmatched (now : Int) (s : String)
    (h1 : ¬ equalFold s "today" = true) (h2 : ¬ equalFold s "yesterday" = true)
    (h3 : ¬ equalFold s "thisweek" = true) (h4 : ¬ equalFold s "lastweek" = true)
    (h5 : ¬ equalFold s "thismonth" = true) (h6 : ¬ equalFold s "lastmonth" = true) :
    DateStringToSlice now s = [] := by
  simp only [DateStringToSlice, if_neg h1, if_neg h2, if_neg h3, if_neg h4, if_neg h5,
    if_neg h6]

/-- A week slice is never empty. -/
theorem aWeek_ne_nil (t : Int) : aWeek t ≠ [] := by
  have hlen : (aWeek t).length = 7 := by
    simp only [aWeek, List.length_map, List.length_range]
  intro h
  rw [h] at hlen
  simp at hlen

/-- A month slice is never empty. -/
theorem aMonth_ne_nil (t : Int) : aMonth t ≠ [] := by
  have hlen : (aMonth t).length = (daysInMonth (yearOfDays t) (monthOfDays t)).toNat := by
    rw [aMonth_eq, range_map_length]
  have hb := daysInMonth_bounds (yearOfDays t) (monthOfDays t)
  intro h
  rw [h] at hlen
  simp at hlen
  omega

end DispatchHelpers

section ClaimsDispatch

/-- C7: `DateStringToSlice` matches case-insensitively against exactly the
keyword set {today, yesterday, thisweek, lastweek, thismonth, lastmonth};
any input matching none of them yields the empty slice (no error channel
exists). -/
theorem C7_DateStringToSlice_spec :
    (∀ (now : Int) (s : String),
        ¬(equalFold s "today" = true ∨ equalFold s "yesterday" = true ∨
          equalFold s "thisweek" = true ∨ equalFold s "lastweek" = true ∨
          equalFold s "thismonth" = true ∨ equalFold s "lastmonth" = true) →
        DateStringToSlice now s = []) ∧
    (∀ (now : Int) (s : String),
        DateStringToSlice now s ≠ [] ↔
          (equalFold s "today" = true ∨ equalFold s "yesterday" = true ∨
           equalFold s "thisweek" = true ∨ equalFold s "lastweek" = true ∨
           equalFold s "thismonth" = true ∨ equalFold s "lastmonth" = true)) := by
  have key : ∀ (now : Int) (s : String),
      DateStringToSlice now s ≠ [] ↔
        (equalFold s "today" = true ∨ equalFold s "yesterday" = true ∨
         equalFold s "thisweek" = true ∨ equalFold s "lastweek" = true ∨
         equalFold s "thismonth" = true ∨ equalFold s "lastmonth" = true) := by
    intro now s
    unfold DateStringToSlice
    split_ifs with a1 a2 a3 a4 a5 a6
    · exact iff_of_true (by simp [Today]) (Or.inl a1)
    · exact iff_of_true (by simp [Yesterday]) (Or.inr (Or.inl a2))
    · exact iff_of_true (aWeek_ne_nil now) (Or.inr (Or.inr (Or.inl a3)))
    · exact iff_of_true (aWeek_ne_nil (addDate now 0 0 (-7)))
        (Or.inr (Or.inr (Or.inr (Or.inl a4))))
    · exact iff_of_true (aMonth_ne_nil now)
        (Or.inr (Or.inr (Or.inr (Or.inr (Or.inl a5)))))
    · exact iff_of_true (aMonth_ne_nil (addDate now 0 (-1) 0))
        (Or.inr (Or.inr (Or.inr (Or.inr (Or.inr a6)))))
    · exact iff_of_false (by simp) (by tauto)
  refine ⟨?_, key⟩
  intro now s h
  by_contra hne
  exact h ((key now s).mp hne)

/-- Witness for C7 at the unmatched input "bogus". -/
theorem C7_DateStringToSlice_spec_witness : DateStringToSlice 0 "bogus" = [] :=
  C7_DateStringToSlice_spec.1 0 "bogus" (by decide)

/-- C8: in `DateObjectsToSlice` the begin/end pair takes precedence over the
keyword whenever begin is non-empty; an empty end defaults to begin (a
single-period range); with begin empty, a non-empty keyword dispatches; and
begin = "20210101" alone yields the one-day range [2021-01-01]. -/
theorem C8_DateObjectsToSlice_spec :
    (∀ (now : Int) (k b e : String), b.length ≠ 0 → e.length ≠ 0 →
        DateObjectsToSlice now k b e = RangeString b e) ∧
    (∀ (now : Int) (k b e : String), b.length ≠ 0 → e.length = 0 →
        DateObjectsToSlice now k b e = RangeString b b) ∧
    (∀ (now : Int) (k e : String), k.length ≠ 0 →
        DateObjectsToSlice now k "" e = some (DateStringToSlice now k)) ∧
    (∀ now : Int, DateObjectsToSlice now "" "20210101" ""
        = some [daysFromCivil 2021 1 1]) := by
  refine ⟨?_, ?_, ?_, ?_⟩
  · intro now k b e hb he
    simp only [DateObjectsToSlice]
    rw [if_pos hb, if_pos he]
  · intro now k b e hb he
    simp only [DateObjectsToSlice]
    rw [if_pos hb, if_neg (by omega)]
  · intro now k e hk
    simp only [DateObjectsToSlice]
    rw [if_neg (by decide : ¬ ("" : String).length ≠ 0), if_pos hk]
  · intro now
    simp only [DateObjectsToSlice]
    rw [if_pos (by decide : ("20210101" : String).length ≠ 0),
      if_neg (by decide : ¬ ("" : String).length ≠ 0)]
    decide

/-- Witness for C8 at concrete begin/end/keyword strings. -/
theorem C8_DateObjectsToSlice_spec_witness :
    DateObjectsToSlice 0 "" "20210101" "20210102" = RangeString "20210101" "20210102" ∧
    DateObjectsToSlice 0 "" "20210101" "" = RangeString "20210101" "20210101" ∧
    DateObjectsToSlice 0 "today" "" "" = some (DateStringToSlice 0 "today") :=
  ⟨C8_DateObjectsToSlice_spec.1 0 "" "20210101" "20210102" (by decide) (by decide),
   C8_DateObjectsToSlice_spec.2.1 0 "" "20210101" "" (by decide) (by decide),
   C8_DateObjectsToSlice_spec.2.2.1 0 "today" "" (by decide)⟩

/-- C10: with begin empty, `DateObjectsToSlice` ignores the end string
entirely — the result is keyword dispatch alone, the empty slice when the
keyword is empty or unrecognized. -/
theorem C10_DateObjectsToSlice_end_ignored :
    (∀ (now : Int) (k e : String),
        DateObjectsToSlice now k "" e
          = some (if k.length ≠ 0 then DateStringToSlice now k else [])) ∧
    (∀ (now : Int) (k e e2 : String),
        DateObjectsToSlice now k "" e = DateObjectsToSlice now k "" e2) ∧
    (∀ (now : Int) (e : String), DateObjectsToSlice now "" "" e = some []) ∧
    (∀ (now : Int) (e : String), DateObjectsToSlice now "bogus" "" e = some []) := by
  have key : ∀ (now : Int) (k e : String),
      DateObjectsToSlice now k "" e
        = some (if k.length ≠ 0 then DateStringToSlice now k else []) := by
    intro now k e
    simp only [DateObjectsToSlice]
    rw [if_neg (by decide : ¬ ("" : String).length ≠ 0)]
  refine ⟨key, ?_, ?_, ?_⟩
  · intro now k e e2
    rw [key, key]
  · intro now e
    rw [key, if_neg (by decide : ¬ ("" : String).length ≠ 0)]
  · intro now e
    rw [key, if_pos (by decide : ("bogus" : String).length ≠ 0),
      dispatch_unmatched now "bogus" (by decide) (by decide) (by decide) (by decide)
        (by decide) (by decide)]

end ClaimsDispatch

section StringLemmas

set_option maxHeartbeats 1000000

/-- `isDigit` as an arithmetic condition on the code point. -/
theorem isDigit_iff (c : Char) : isDigit c = true ↔ 48 ≤ c.toNat ∧ c.toNat ≤ 57 := by
  simp [isDigit, Bool.and_eq_true, decide_eq_true_eq]

/-- Digit characters have values between 0 and 9. -/
theorem digitVal_bounds (c : Char) (h : isDigit c = true) :
    0 ≤ digitVal c ∧ digitVal c ≤ 9 := by
  rw [isDigit_iff] at h
  unfold digitVal
  omega

/-- Folding the decimal accumulator over a list shifts the seed by a power
of ten. -/
theorem valOfDigits_shift (l : List Char) (a : Int) :
    l.foldl (fun a c => 10 * a + digitVal c) a = a * 10 ^ l.length + valOfDigits l := by
  induction l generalizing a with
  | nil => simp [valOfDigits]
  | cons c t ih =>
    simp only [List.foldl_cons, List.length_cons, valOfDigits]
    rw [ih (10 * a + digitVal c), ih (10 * 0 + digitVal c), pow_succ]
    ring

/-- Peeling the leading digit of a decimal string. -/
theorem valOfDigits_cons (c : Char) (t : List Char) :
    valOfDigits (c :: t) = digitVal c * 10 ^ t.length + valOfDigits t := by
  rw [show valOfDigits (c :: t)
      = t.foldl (fun a c => 10 * a + digitVal c) (10 * 0 + digitVal c) from rfl,
    valOfDigits_shift]
  ring

/-- The value of an all-digit string is nonnegative and below the
corresponding power of ten. -/
theorem valOfDigits_bounds (l : List Char) (h : l.all isDigit = true) :
    0 ≤ valOfDigits l ∧ valOfDigits l < 10 ^ l.length := by
  induction l with
  | nil => simp [valOfDigits]
  | cons c t ih =>
    rw [List.all_cons, Bool.and_eq_true] at h
    have hc := digitVal_bounds c h.1
    have ht := ih h.2
    have hp : (0 : Int) < 10 ^ t.length := pow_pos (by norm_num) _
    rw [valOfDigits_cons, List.length_cons, pow_succ]
    constructor
    · have := mul_nonneg hc.1 hp.le
      linarith [ht.1]
    · have := mul_le_mul_of_nonneg_right hc.2 hp.le
      linarith [ht.2]

/-- `digitVal` inverts `digitChar` on single digits. -/
theorem digitVal_digitChar (k : Int) (h0 : 0 ≤ k) (h9 : k ≤ 9) :
    digitVal (digitChar k) = k := by
  interval_cases k <;> decide

/-- `digitChar` produces digit characters. -/
theorem isDigit_digitChar (k : Int) (h0 : 0 ≤ k) (h9 : k ≤ 9) :
    isDigit (digitChar k) = true := by
  interval_cases k <;> decide

/-- `pad2` renders values up to 99 faithfully. -/
theorem valOfDigits_pad2 (n : Int) (h0 : 0 ≤ n) (h : n ≤ 99) :
    valOfDigits (pad2 n) = n := by
  unfold pad2 valOfDigits
  simp only [List.foldl_cons, List.foldl_nil]
  rw [digitVal_digitChar _ (by omega) (by omega), digitVal_digitChar _ (by omega) (by omega)]
  omega

/-- `pad4` renders values up to 9999 faithfully. -/
theorem valOfDigits_pad4 (n : Int) (h0 : 0 ≤ n) (h : n ≤ 9999) :
    valOfDigits (pad4 n) = n := by
  unfold pad4 valOfDigits
  simp only [List.foldl_cons, List.foldl_nil]
  rw [digitVal_digitChar _ (by omega) (by omega), digitVal_digitChar _ (by omega) (by omega),
    digitVal_digitChar _ (by omega) (by omega), digitVal_digitChar _ (by omega) (by omega)]
  omega

/-- `pad2` output is all digits. -/
theorem pad2_digits (n : Int) : (pad2 n).all isDigit = true := by
  unfold pad2
  simp only [List.all_cons, List.all_nil, Bool.and_eq_true]
  exact ⟨isDigit_digitChar _ (by omega) (by omega),
    isDigit_digitChar _ (by omega) (by omega), trivial⟩

/-- `pad4` output is all digits. -/
theorem pad4_digits (n : Int) : (pad4 n).all isDigit = true := by
  unfold pad4
  simp only [List.all_cons, List.all_nil, Bool.and_eq_true]
  exact ⟨isDigit_digitChar _ (by omega) (by omega), isDigit_digitChar _ (by omega) (by omega),
    isDigit_digitChar _ (by omega) (by omega), isDigit_digitChar _ (by omega) (by omega),
    trivial⟩

/-- Parsing a fixed-width formatted valid date recovers the date. -/
theorem parse_pad (y mo d : Int) (hy0 : 0 ≤ y) (hy : y ≤ 9999) (hmo1 : 1 ≤ mo)
    (hmo : mo ≤ 12) (hd1 : 1 ≤ d) (hd : d ≤ daysInMonth y mo) :
    parseYYYYMMDD ⟨pad4 y ++ pad2 mo ++ pad2 d⟩ = some (daysFromCivil y mo d) := by
  have hd31 : d ≤ 31 := le_trans hd (daysInMonth_bounds y mo).2
  have hAB : ((pad4 y ++ pad2 mo).length) = 6 := rfl
  have htake : (pad4 y ++ pad2 mo ++ pad2 d).take 4 = pad4 y := by
    rw [List.append_assoc, show (4 : Nat) = (pad4 y).length from rfl, List.take_left]
  have hdrop4 : (pad4 y ++ pad2 mo ++ pad2 d).drop 4 = pad2 mo ++ pad2 d := by
    rw [List.append_assoc, show (4 : Nat) = (pad4 y).length from rfl, List.drop_left]
  have hmid : ((pad4 y ++ pad2 mo ++ pad2 d).drop 4).take 2 = pad2 mo := by
    rw [hdrop4, show (2 : Nat) = (pad2 mo).length from rfl, List.take_left]
  have hdrop6 : (pad4 y ++ pad2 mo ++ pad2 d).drop 6 = pad2 d := by
    rw [show (6 : Nat) = (pad4 y ++ pad2 mo).length from rfl, List.drop_left]
  unfold parseYYYYMMDD
  rw [show (String.mk (pad4 y ++ pad2 mo ++ pad2 d)).toList
      = pad4 y ++ pad2 mo ++ pad2 d from rfl]
  rw [if_pos ⟨by rw [List.length_append, List.length_append]; rfl, by
    rw [List.all_append, List.all_append, pad4_digits, pad2_digits, pad2_digits]; rfl⟩]
  rw [htake, hmid, hdrop6, valOfDigits_pad4 y hy0 hy,
    valOfDigits_pad2 mo (by omega) (by omega), valOfDigits_pad2 d (by omega) (by omega)]
  rw [if_pos ⟨hmo1, hmo, hd1, hd⟩]

/-- Parsing a 6-digit year-month widened with day `01`. -/
theorem parse_append01 (s : String) (h6 : s.toList.length = 6)
    (hdig : s.toList.all isDigit = true)
    (hmo1 : 1 ≤ valOfDigits (s.toList.drop 4))
    (hmo12 : valOfDigits (s.toList.drop 4) ≤ 12) :
    parseYYYYMMDD (s ++ "01")
      = some (daysFromCivil (valOfDigits (s.toList.take 4))
          (valOfDigits (s.toList.drop 4)) 1) := by
  have hl : (s ++ "01").toList = s.toList ++ ['0', '1'] := String.data_append s "01"
  have htake : (s.toList ++ ['0', '1']).take 4 = s.toList.take 4 :=
    List.take_append_of_le_length (by omega)
  have hdrop4 : (s.toList ++ ['0', '1']).drop 4 = s.toList.drop 4 ++ ['0', '1'] :=
    List.drop_append_of_le_length (by omega)
  have hlim : (s.toList.drop 4).length = 2 := by rw [List.length_drop, h6]
  have hmid : ((s.toList ++ ['0', '1']).drop 4).take 2 = s.toList.drop 4 := by
    rw [hdrop4, show (2 : Nat) = (s.toList.drop 4).length from hlim.symm, List.take_left]
  have hdrop6 : (s.toList ++ ['0', '1']).drop 6 = ['0', '1'] := by
    rw [show (6 : Nat) = s.toList.length + 0 from by omega, List.drop_append]
    rfl
  unfold parseYYYYMMDD
  rw [hl]
  rw [if_pos ⟨by rw [List.length_append, h6]; rfl,
    by rw [List.all_append, hdig]; rfl⟩]
  rw [htake, hmid, hdrop6, show valOfDigits ['0', '1'] = 1 from rfl]
  rw [if_pos ⟨hmo1, hmo12, by norm_num, by
    have := daysInMonth_bounds (valOfDigits (s.toList.take 4)) (valOfDigits (s.toList.drop 4))
    omega⟩]

/-- Parsing a 4-digit year widened with `0101`. -/
theorem parse_append0101 (s : String) (h4 : s.toList.length = 4)
    (hdig : s.toList.all isDigit = true) :
    parseYYYYMMDD (s ++ "0101") = some (daysFromCivil (valOfDigits s.toList) 1 1) := by
  have hl : (s ++ "0101").toList = s.toList ++ ['0', '1', '0', '1'] :=
    String.data_append s "0101"
  have htake : (s.toList ++ ['0', '1', '0', '1']).take 4 = s.toList := by
    rw [List.take_append_of_le_length (by omega), List.take_of_length_le (by omega)]
  have hdrop4 : (s.toList ++ ['0', '1', '0', '1']).drop 4 = ['0', '1', '0', '1'] := by
    rw [List.drop_append_of_le_length (by omega), List.drop_eq_nil_of_le (by omega)]
    rfl
  have hmid : ((s.toList ++ ['0', '1', '0', '1']).drop 4).take 2 = ['0', '1'] := by
    rw [hdrop4]
    rfl
  have hdrop6 : (s.toList ++ ['0', '1', '0', '1']).drop 6 = ['0', '1'] := by
    rw [show (6 : Nat) = s.toList.length + 2 from by omega, List.drop_append]
    rfl
  unfold parseYYYYMMDD
  rw [hl]
  rw [if_pos ⟨by rw [List.length_append, h4]; rfl,
    by rw [List.all_append, hdig]; rfl⟩]
  rw [htake, hmid, hdrop6, show valOfDigits ['0', '1'] = 1 from rfl]
  rw [if_pos ⟨by norm_num, by norm_num, by norm_num,
    by norm_num [daysInMonth]⟩]

/-- Formatting a valid civil date gives its fixed-width digit string. -/
theorem format_of_civil (y mo d : Int) (hmo1 : 1 ≤ mo) (hmo : mo ≤ 12) (hd1 : 1 ≤ d)
    (hd : d ≤ daysInMonth y mo) :
    formatYYYYMMDD (daysFromCivil y mo d) = ⟨pad4 y ++ pad2 mo ++ pad2 d⟩ := by
  unfold formatYYYYMMDD yearOfDays monthOfDays dayOfDays
  rw [civilFromDays_daysFromCivil y mo d hmo1 hmo hd1 hd]

/-- "Append 01, parse, add one month, subtract one day" lands on the last
day of the month. -/
theorem month_end_widen (y mo : Int) (hmo1 : 1 ≤ mo) (hmo : mo ≤ 12) :
    addDate (addDate (daysFromCivil y mo 1) 0 1 0) 0 0 (-1)
      = daysFromCivil y mo (daysInMonth y mo) := by
  have hdimb := daysInMonth_bounds y mo
  rw [addDate_of_civil y mo 1 hmo1 hmo (by norm_num) (by omega) 0 1 0]
  rw [show y + 0 = y from by ring, show (1 : Int) + 0 = 1 from by norm_num]
  rw [addDate_days]
  have hm := month_length y mo hmo1 hmo
  have h2 : daysFromCivil y mo (1 + (daysInMonth y mo - 1))
      = daysFromCivil y mo 1 + (daysInMonth y mo - 1) := daysFromCivil_add_days _ _ _ _
  rw [show (1 : Int) + (daysInMonth y mo - 1) = daysInMonth y mo from by ring] at h2
  omega

/-- "Append 0101, parse, add one year, subtract one day" lands on December
31. -/
theorem year_end_widen (y : Int) :
    addDate (addDate (daysFromCivil y 1 1) 1 0 0) 0 0 (-1) = daysFromCivil y 12 31 := by
  rw [addDate_of_civil y 1 1 (by norm_num) (by norm_num) (by norm_num)
    (by norm_num [daysInMonth]) 1 0 0]
  rw [show (1 : Int) + 0 = 1 from by norm_num]
  rw [addDate_days]
  have hdec : daysFromCivil y 12 31 + 1 = dateFromYMD (y + 1) 1 1 := by
    simp only [dateFromYMD, daysFromCivil]
    split_ifs <;> omega
  omega

end StringLemmas

section RangeStringLemmas

set_option maxHeartbeats 1000000

/-- `RangeString` on a valid 6-digit year-month used as both begin and end:
the begin widens to the 1st of the month and the end to the last day of the
month. -/
theorem RangeString_month (s : String) (hs6 : s.length = 6)
    (hdig : s.toList.all isDigit = true)
    (hmo1 : 1 ≤ valOfDigits (s.toList.drop 4))
    (hmo12 : valOfDigits (s.toList.drop 4) ≤ 12) :
    RangeString s s
      = Range (daysFromCivil (valOfDigits (s.toList.take 4))
            (valOfDigits (s.toList.drop 4)) 1)
          (daysFromCivil (valOfDigits (s.toList.take 4)) (valOfDigits (s.toList.drop 4))
            (daysInMonth (valOfDigits (s.toList.take 4))
              (valOfDigits (s.toList.drop 4)))) := by
  have h6' : s.toList.length = 6 := hs6
  have hyb : 0 ≤ valOfDigits (s.toList.take 4) ∧ valOfDigits (s.toList.take 4) < 10000 := by
    have hall : (s.toList.take 4).all isDigit = true := by
      rw [List.all_eq_true] at hdig ⊢
      exact fun x hx => hdig x (List.mem_of_mem_take hx)
    have hlen : (s.toList.take 4).length = 4 := by
      rw [List.length_take, h6']
      decide
    have hb := valOfDigits_bounds _ hall
    rw [hlen] at hb
    norm_num at hb
    exact hb
  have hdimb := daysInMonth_bounds (valOfDigits (s.toList.take 4))
    (valOfDigits (s.toList.drop 4))
  have hparse : parseOrZero (s ++ "01")
      = daysFromCivil (valOfDigits (s.toList.take 4)) (valOfDigits (s.toList.drop 4)) 1 := by
    unfold parseOrZero
    rw [parse_append01 s h6' hdig hmo1 hmo12]
    rfl
  have hwiden := month_end_widen (valOfDigits (s.toList.take 4))
    (valOfDigits (s.toList.drop 4)) hmo1 hmo12
  have hfmt := format_of_civil (valOfDigits (s.toList.take 4))
    (valOfDigits (s.toList.drop 4))
    (daysInMonth (valOfDigits (s.toList.take 4)) (valOfDigits (s.toList.drop 4)))
    hmo1 hmo12 (by omega) (le_refl _)
  have hplen : ¬((s ++ "01").length = 4) := by
    rw [String.length_append, hs6]
    decide
  have h8 : (⟨pad4 (valOfDigits (s.toList.take 4)) ++ pad2 (valOfDigits (s.toList.drop 4))
      ++ pad2 (daysInMonth (valOfDigits (s.toList.take 4))
        (valOfDigits (s.toList.drop 4)))⟩ : String).length = 8 := rfl
  have hS4 : ¬((⟨pad4 (valOfDigits (s.toList.take 4)) ++ pad2 (valOfDigits (s.toList.drop 4))
      ++ pad2 (daysInMonth (valOfDigits (s.toList.take 4))
        (valOfDigits (s.toList.drop 4)))⟩ : String).length = 4) := by
    rw [h8]
    decide
  have hparse2 : parseOrZero ⟨pad4 (valOfDigits (s.toList.take 4))
      ++ pad2 (valOfDigits (s.toList.drop 4))
      ++ pad2 (daysInMonth (valOfDigits (s.toList.take 4))
        (valOfDigits (s.toList.drop 4)))⟩
      = daysFromCivil (valOfDigits (s.toList.take 4)) (valOfDigits (s.toList.drop 4))
          (daysInMonth (valOfDigits (s.toList.take 4)) (valOfDigits (s.toList.drop 4))) := by
    unfold parseOrZero
    rw [parse_pad _ _ _ hyb.1 (by omega) hmo1 hmo12 (by omega) (le_refl _)]
    rfl
  simp only [RangeString]
  simp only [if_pos hs6, if_neg hplen]
  rw [hparse, hwiden, hfmt]
  simp only [if_neg hS4]
  rw [hparse2]

/-- `RangeString` on a 4-digit year used as both begin and end: the begin
widens to January 1 and the end to December 31 of that year. -/
theorem RangeString_year (s : String) (hs4 : s.length = 4)
    (hdig : s.toList.all isDigit = true) :
    RangeString s s
      = Range (daysFromCivil (valOfDigits s.toList) 1 1)
          (daysFromCivil (valOfDigits s.toList) 12 31) := by
  have h4' : s.toList.length = 4 := hs4
  have hyb : 0 ≤ valOfDigits s.toList ∧ valOfDigits s.toList < 10000 := by
    have hb := valOfDigits_bounds _ hdig
    rw [h4'] at hb
    norm_num at hb
    exact hb
  have hn6 : ¬(s.length = 6) := by
    rw [hs4]
    decide
  have hparse : parseOrZero (s ++ "0101") = daysFromCivil (valOfDigits s.toList) 1 1 := by
    unfold parseOrZero
    rw [parse_append0101 s h4' hdig]
    rfl
  have hwiden := year_end_widen (valOfDigits s.toList)
  have hfmt := format_of_civil (valOfDigits s.toList) 12 31 (by norm_num) (by norm_num)
    (by norm_num) (by norm_num [daysInMonth])
  have hparse2 : parseOrZero ⟨pad4 (valOfDigits s.toList) ++ pad2 12 ++ pad2 31⟩
      = daysFromCivil (valOfDigits s.toList) 12 31 := by
    unfold parseOrZero
    rw [parse_pad _ 12 31 hyb.1 (by omega) (by norm_num) (by norm_num) (by norm_num)
      (by norm_num [daysInMonth])]
    rfl
  simp only [RangeString]
  simp only [if_neg hn6, if_pos hs4]
  rw [hparse, hwiden, hfmt]
  rw [hparse2]

end RangeStringLemmas

section ClaimsRangeString

set_option maxHeartbeats 4000000
set_option maxRecDepth 100000

/-- C5: a length-6 digit string `YYYYMM` with a valid month is widened as
begin by appending day 01 (the first of the month) and as end to the last
day of that month; `RangeString("202104", "202104")` is the 30-day
inclusive range 2021-04-01 .. 2021-04-30. -/
theorem C5_RangeString_month_spec :
    (∀ s : String, s.length = 6 → s.toList.all isDigit = true →
        1 ≤ valOfDigits (s.toList.drop 4) → valOfDigits (s.toList.drop 4) ≤ 12 →
        RangeString s s
          = Range (daysFromCivil (valOfDigits (s.toList.take 4))
                (valOfDigits (s.toList.drop 4)) 1)
              (daysFromCivil (valOfDigits (s.toList.take 4))
                (valOfDigits (s.toList.drop 4))
                (daysInMonth (valOfDigits (s.toList.take 4))
                  (valOfDigits (s.toList.drop 4))))) ∧
    RangeString "202104" "202104"
      = some ((List.range 30).map (fun (i : Nat) => daysFromCivil 2021 4 1 + (i : Int))) ∧
    ((List.range 30).map (fun (i : Nat) => daysFromCivil 2021 4 1 + (i : Int))).length
      = 30 ∧
    ((List.range 30).map (fun (i : Nat) => daysFromCivil 2021 4 1 + (i : Int))).head?
      = some (daysFromCivil 2021 4 1) ∧
    ((List.range 30).map (fun (i : Nat) => daysFromCivil 2021 4 1 + (i : Int))).getLast?
      = some (daysFromCivil 2021 4 30) :=
  ⟨RangeString_month, by decide, by decide, by decide, by decide⟩

/-- Witness for C5 at the input "202104". -/
theorem C5_RangeString_month_spec_witness :
    RangeString "202104" "202104"
      = Range (daysFromCivil 2021 4 1) (daysFromCivil 2021 4 30) :=
  C5_RangeString_month_spec.1 "202104" (by decide) (by decide) (by decide) (by decide)

/-- C6: a length-4 digit string `YYYY` is widened as begin to January 1 and
as end to December 31 of that year; `RangeString("2022", "2022")` is the
365-day inclusive range 2022-01-01 .. 2022-12-31. -/
theorem C6_RangeString_year_spec :
    (∀ s : String, s.length = 4 → s.toList.all isDigit = true →
        RangeString s s
          = Range (daysFromCivil (valOfDigits s.toList) 1 1)
              (daysFromCivil (valOfDigits s.toList) 12 31)) ∧
    RangeString "2022" "2022"
      = some ((List.range 365).map (fun (i : Nat) => daysFromCivil 2022 1 1 + (i : Int))) ∧
    ((List.range 365).map (fun (i : Nat) => daysFromCivil 2022 1 1 + (i : Int))).length
      = 365 ∧
    ((List.range 365).map (fun (i : Nat) => daysFromCivil 2022 1 1 + (i : Int))).head?
      = some (daysFromCivil 2022 1 1) ∧
    ((List.range 365).map (fun (i : Nat) => daysFromCivil 2022 1 1 + (i : Int))).getLast?
      = some (daysFromCivil 2022 12 31) :=
  ⟨RangeString_year, by decide, by decide, by decide, by decide⟩

/-- Witness for C6 at the input "2022". -/
theorem C6_RangeString_year_spec_witness :
    RangeString "2022" "2022"
      = Range (daysFromCivil 2022 1 1) (daysFromCivil 2022 12 31) :=
  C6_RangeString_year_spec.1 "2022" (by decide) (by decide)

end ClaimsRangeString

end DateSlice
